import Mathlib

/-!
Verification of the pochimethod utility toolkit: a shallow embedding of the
Workspace / Registry / Timestamp / Config-facade core (from `src/pochi/`)
together with theorems settling the specification claims.

Strings manipulated character-by-character by the Python code (directory
names, formatted workspace names) are modelled as `List Char`; strings only
compared for equality (registry keys, subdirectory names, messages) are
modelled as `String`.
-/

namespace Pochi


/-! ### Decimal rendering of natural numbers (Python `str(n)` / `f-string`) -/

/-- Fuel-driven most-significant-first decimal digits of a natural number.
The fuel only has to dominate the number itself for the recursion on `n / 10`
to finish; `natDecimal` below always supplies enough. -/
def natDecimalAux : Nat → Nat → List Char
  | 0, n => [Nat.digitChar (n % 10)]
  | fuel + 1, n =>
    if n < 10 then [Nat.digitChar n]
    else natDecimalAux fuel (n / 10) ++ [Nat.digitChar (n % 10)]

/-- Decimal representation of a natural number, most significant digit first:
the embedding of Python `str(n)` for `n ≥ 0`. -/
def natDecimal (n : Nat) : List Char := natDecimalAux n n

/-- Reading digits back: the value of a most-significant-first digit list. -/
def digitsVal (l : List Char) : Nat := l.foldl (fun a c => a * 10 + (c.toNat - 48)) 0

/-! ### Python string helpers -/

/-- Python `s.split(sep)` for a single-character separator, on the character
list of the string: always returns at least one (possibly empty) segment. -/
def splitOnChar (c : Char) : List Char → List (List Char)
  | [] => [[]]
  | x :: xs =>
    if x = c then [] :: splitOnChar c xs
    else
      match splitOnChar c xs with
      | [] => [[x]]
      | h :: t => (x :: h) :: t

/-- Whitespace as stripped by Python `int(str)` before parsing (restricted to
the ASCII whitespace characters). -/
def pyIsSpace (c : Char) : Bool := c.isWhitespace

/-- Leading/trailing-whitespace strip, as Python `int` applies to its input. -/
def pyStrip (l : List Char) : List Char :=
  ((l.dropWhile pyIsSpace).reverse.dropWhile pyIsSpace).reverse

/-- Nonempty all-ASCII-digits test. -/
def isDigits (l : List Char) : Bool := !l.isEmpty && l.all Char.isDigit

/-- The embedding of Python `int(s)` on the strings this program can feed it:
optional surrounding whitespace, an optional sign, then ASCII decimal digits
(`None` models the `ValueError` of a malformed literal). -/
def pyIntParse (l : List Char) : Option Int :=
  match pyStrip l with
  | '-' :: rest => if isDigits rest then some (-(digitsVal rest : Int)) else none
  | '+' :: rest => if isDigits rest then some (digitsVal rest : Int) else none
  | t => if isDigits t then some (digitsVal t : Int) else none

/-- Python `s.endswith(sfx)` on the character lists of the strings. -/
def strEndsWith (s sfx : String) : Bool := sfx.data.isSuffixOf s.data

/-- Python `<` on strings: strict lexicographic comparison of code points. -/
def pyStrLt : List Char → List Char → Bool
  | [], [] => false
  | [], _ :: _ => true
  | _ :: _, [] => false
  | a :: as, b :: bs =>
    if a.toNat < b.toNat then true
    else if b.toNat < a.toNat then false
    else pyStrLt as bs

/-- Python `repr` of a plain string without quotes or escapes inside. -/
def pyReprStr (s : String) : String := "'" ++ s ++ "'"

/-- Python `str`/`repr` of a list of strings, e.g. `['a', 'b']`. -/
def pyReprStrList (l : List String) : String :=
  "[" ++ String.intercalate ", " (l.map pyReprStr) ++ "]"

/-! ### Python values, objects and exceptions -/

/-- The Python values flowing through config records and keyword arguments. -/
inductive PyVal where
  | int (n : Int)
  | str (s : String)
deriving DecidableEq

/-- Python `str(v)` as used inside f-strings. -/
def PyVal.toStr : PyVal → String
  | .int n => toString n
  | .str s => s

/-- An instance produced by a registered constructor: its attribute dict. -/
structure Obj where
  attrs : List (String × PyVal)
deriving DecidableEq

/-- The exceptions raised by the embedded code, carrying the exact message. -/
inductive PyErr where
  | valueError (msg : String)
  | keyError (msg : String)
  | attributeError (msg : String)
  | typeError (msg : String)
deriving DecidableEq

/-! ### Registry (`src/pochi/registry/registry.py`) -/

/-- A registered "constructible type": its `str()` rendering (as interpolated
into the duplicate-registration message) and its constructor, mapping keyword
arguments to an instance or a raised exception. -/
structure PyType where
  reprStr : String
  ctor : List (String × PyVal) → Except PyErr Obj

/-- `Registry`: a named insertion-ordered mapping from key to type. -/
structure Registry where
  name : String
  reg : List (String × PyType)

/-- `Registry(name)`: starts empty. -/
def Registry.init (name : String) : Registry := ⟨name, []⟩

/-- First-match association lookup (Python dict lookup; keys are unique). -/
def assocFind (d : List (String × PyType)) (k : String) : Option PyType :=
  (d.find? (fun kv => kv.1 = k)).map (·.2)

/-- `Registry.keys`: registered names in insertion order. -/
def Registry.keys (r : Registry) : List String := r.reg.map (·.1)

/-- Membership of a runtime value among the string keys of a dict: a
non-string value is never equal to any string key. -/
def Registry.findVal (r : Registry) (k : PyVal) : Option PyType :=
  match k with
  | .str s => assocFind r.reg s
  | _ => none

/-- Message of the duplicate-registration `ValueError`. -/
def dupMsg (name : String) (prev : PyType) : String :=
  "'" ++ name ++ "' は既に登録されています: " ++ prev.reprStr

/-- Message of the unregistered-name `ValueError`. -/
def unregisteredMsg (name : PyVal) (available : List String) : String :=
  "未登録: '" ++ name.toStr ++ "'. 利用可能: " ++ pyReprStrList available

/-- Message of the missing-`name`-key `KeyError` (a constant: it carries no
information about which record failed). -/
def missingNameMsg : String := "設定には 'name' キーが必要です"

/-- `Registry.register(name)`: evaluating the method itself performs no check
and no mutation — it only returns the decorator. The returned decorator, run
against the registry state current at application time, performs the
duplicate check and the insertion and hands the class back unchanged. -/
def Registry.register (r : Registry) (name : String) :
    Registry × (Registry → PyType → Except PyErr (Registry × PyType)) :=
  (r, fun rCur cls =>
    match assocFind rCur.reg name with
    | some prev => .error (.valueError (dupMsg name prev))
    | none => .ok ({ rCur with reg := rCur.reg ++ [(name, cls)] }, cls))

/-- `Registry.create(name, **kwargs)`: look the name up, raise the
unregistered `ValueError` if absent, otherwise call the constructor. -/
def Registry.create (r : Registry) (name : PyVal) (kwargs : List (String × PyVal)) :
    Except PyErr Obj :=
  match r.findVal name with
  | none => .error (.valueError (unregisteredMsg name r.keys))
  | some t => t.ctor kwargs

/-- A config record: an insertion-ordered dict of field name to value. -/
def Record := List (String × PyVal)

/-- `step["name"]` when present (`none` models `"name" not in step`). -/
def recordName (step : Record) : Option PyVal :=
  (step.find? (fun kv => kv.1 = "name")).map (·.2)

/-- `{k: v for k, v in step.items() if k != "name"}`. -/
def recordKwargs (step : Record) : List (String × PyVal) :=
  step.filter (fun kv => kv.1 ≠ "name")

/-- `Registry.create_from_config(config_list)`: build one instance per record
in order; a record without `"name"` raises the constant `KeyError`; a failing
`create` propagates its error; the first failure aborts the rest. -/
def Registry.create_from_config (r : Registry) : List Record → Except PyErr (List Obj)
  | [] => .ok []
  | step :: rest =>
    match recordName step with
    | none => .error (.keyError missingNameMsg)
    | some nv =>
      match r.create nv (recordKwargs step) with
      | .error e => .error e
      | .ok inst =>
        match r.create_from_config rest with
        | .error e => .error e
        | .ok l => .ok (inst :: l)

/-- The claim's per-record step of the batch build: fetch `record["name"]`
(the `KeyError` if absent) and delegate to `create` on the record minus its
`"name"` field. -/
def buildOne (r : Registry) (step : Record) : Except PyErr Obj :=
  match recordName step with
  | none => .error (.keyError missingNameMsg)
  | some nv => r.create nv (recordKwargs step)

/-- A registered class that stores every keyword argument it receives as an
instance attribute (the shape of the example classes in the claims). -/
def attrType (reprS : String) : PyType :=
  ⟨reprS, fun kwargs => .ok ⟨kwargs⟩⟩

/-- A registry with `blur` and `edge` registered, as in the claims' examples. -/
def demoRegistry : Registry :=
  ⟨"processors", [("blur", attrType "<class 'Blur'>"), ("edge", attrType "<class 'Edge'>")]⟩

/-- `Registry.__contains__`. -/
def Registry.containsKey (r : Registry) (name : String) : Bool :=
  (assocFind r.reg name).isSome

/-- `Registry.__len__`. -/
def Registry.size (r : Registry) : Nat := r.reg.length

/-! ### Workspace model (`src/pochi/workspace/models.py`) -/

/-- A filesystem path as its list of segments; `p / name` appends a segment. -/
def FsPath := List String
deriving instance DecidableEq for FsPath

/-- `root / name`. -/
def FsPath.child (p : FsPath) (name : String) : FsPath :=
  List.append p [name]

/-- Python dict insertion: overwrite in place if the key exists (keeping its
original position), else append. -/
def dictInsert (d : List (String × FsPath)) (k : String) (v : FsPath) :
    List (String × FsPath) :=
  if d.any (fun kv => kv.1 = k) then
    d.map (fun kv => if kv.1 = k then (k, v) else kv)
  else d ++ [(k, v)]

/-- First-match association lookup for the subdirectory dict. -/
def subdirFind (d : List (String × FsPath)) (k : String) : Option FsPath :=
  (d.find? (fun kv => kv.1 = k)).map (·.2)

/-- `Workspace`: root path plus the subdirectory-name → path dict. -/
structure Workspace where
  root : FsPath
  subdirs : List (String × FsPath)

/-- `Workspace.__init__(root, subdirs)`: record `root / name` for each name
(`if subdirs:` treats `None` and the empty list alike — no entries). -/
def Workspace.init (root : FsPath) (subdirs : Option (List String)) : Workspace :=
  { root := root
    subdirs :=
      match subdirs with
      | none => []
      | some l => l.foldl (fun d n => dictInsert d n (root.child n)) [] }

/-- Python `name.startswith("_")`. -/
def startsWithUnderscore (name : String) : Bool :=
  match name.data with
  | [] => false
  | c :: _ => c = '_'

/-- Message of the generic `AttributeError` for underscore-leading names. -/
def noAttrMsg (name : String) : String :=
  "'Workspace' has no attribute '" ++ name ++ "'"

/-- Message of the no-such-subdirectory `AttributeError`. -/
def noSubdirMsg (name : String) (available : List String) : String :=
  "'Workspace' has no subdir '" ++ name ++ "'. Available: " ++ pyReprStrList available

/-- `Workspace.__getattr__(name)`: reject names starting with `_` with the
generic message, return the recorded path for known subdirectory names, and
raise the key-naming, alternatives-listing error otherwise. -/
def Workspace.getattr (w : Workspace) (name : String) : Except PyErr FsPath :=
  if startsWithUnderscore name then
    .error (.attributeError (noAttrMsg name))
  else
    match subdirFind w.subdirs name with
    | some p => .ok p
    | none => .error (.attributeError (noSubdirMsg name (w.subdirs.map (·.1))))

/-! ### Timestamp namer (`src/pochi/workspace/timestamp.py`) -/

/-- An immediate child of the base directory: its name and whether it is a
directory (`path.is_dir()`). -/
structure DirEntry where
  name : List Char
  isDir : Bool
deriving DecidableEq

/-- `find_next_index(base_dir, date_str)`. `base_dir = none` models a
non-existent directory; otherwise the list is its immediate children. For a
directory child whose name starts with `date_str + "_"`, the code takes
`name.split("_")[1]` and collects `int(...)` of it, skipping `IndexError` /
`ValueError`; the result is `max + 1`, or `1` when nothing was collected. -/
def find_next_index (base_dir : Option (List DirEntry)) (date_str : List Char) : Int :=
  match base_dir with
  | none => 1
  | some entries =>
    match entries.filterMap (fun p =>
      if p.isDir && (date_str ++ ['_']).isPrefixOf p.name then
        ((splitOnChar '_' p.name)[1]?).bind pyIntParse
      else none) with
    | [] => 1
    | i :: is => is.foldl max i + 1

/-- The claim's reading of `next_index`, followed to the letter: collect the
numeric suffix of every child (of any kind) whose name matches the pattern
`"{date_tag}_<digits>"` exactly, and return `max + 1`, or `1`. -/
def claimed_next_index (base_dir : Option (List DirEntry)) (date_str : List Char) : Int :=
  match base_dir with
  | none => 1
  | some entries =>
    match entries.filterMap (fun p =>
      if (date_str ++ ['_']).isPrefixOf p.name
          && isDigits (p.name.drop (date_str.length + 1)) then
        some ((digitsVal (p.name.drop (date_str.length + 1)) : Int))
      else none) with
    | [] => 1
    | i :: is => is.foldl max i + 1

/-- The amended reading of `next_index`: only children that are directories
count; the collected value of a child whose name starts with
`"{date_tag}_"` is the text between that underscore and the next underscore
(or the end of the name), parsed as Python `int` parses it (optional sign and
whitespace allowed, and a parse failure silently skips the child). -/
def amended_next_index (base_dir : Option (List DirEntry)) (date_str : List Char) : Int :=
  match base_dir with
  | none => 1
  | some entries =>
    match entries.filterMap (fun p =>
      if p.isDir && (date_str ++ ['_']).isPrefixOf p.name then
        pyIntParse ((p.name.drop (date_str.length + 1)).takeWhile (· ≠ '_'))
      else none) with
    | [] => 1
    | i :: is => is.foldl max i + 1

/-- Zero-padding to the left, as `f-string` padding does. -/
def leftPad (c : Char) (w : Nat) (l : List Char) : List Char :=
  List.replicate (w - l.length) c ++ l

/-- Python `f-string` `{n:03d}`: decimal digits padded with `0` to width at
least 3; a negative value keeps its sign and pads to total width 3. -/
def pad3 (n : Int) : List Char :=
  if n < 0 then '-' :: leftPad '0' 2 (natDecimal n.natAbs)
  else leftPad '0' 3 (natDecimal n.toNat)

/-- `format_workspace_name(date_str, index)` = `f"{date_str}_{index:03d}"`. -/
def format_workspace_name (date_str : List Char) (index : Int) : List Char :=
  date_str ++ '_' :: pad3 index

/-! ### Workspace creator, numbered mode
(`src/pochi/workspace/creator.py`, `_create_numbered_dir`) -/

/-- The `while True` probing loop: `index = 1; while (base / f"{prefix}{index}")
exists: index += 1`. `existing` is the set of names present under the base
directory (files or directories — the code tests `exists()`); the fuel
argument only has to exceed the number of existing entries, which
`numberedIndex` arranges. -/
def probeLoop : Nat → Nat → List Char → List (List Char) → Nat
  | 0, i, _, _ => i
  | fuel + 1, i, pfx, existing =>
    if (pfx ++ natDecimal i) ∈ existing then probeLoop fuel (i + 1) pfx existing
    else i

/-- The index `_create_numbered_dir` settles on. -/
def numberedIndex (existing : List (List Char)) (pfx : List Char) : Nat :=
  probeLoop (existing.length + 1) 1 pfx existing

/-- The directory name `_create_numbered_dir` creates and returns. -/
def numberedName (existing : List (List Char)) (pfx : List Char) : List Char :=
  pfx ++ natDecimal (numberedIndex existing pfx)

/-! ### Config loader facade (`src/pochi/config/facade.py`) -/

/-- A loaded config dict. -/
def ConfigDict := List (String × PyVal)

/-- A config loader as the facade sees one: its class name (interpolated into
the unsupported-format message), its `supports` predicate, and its `load`
behaviour (abstracted: real loaders read the filesystem). -/
structure ConfigLoader where
  clsName : String
  supports : String → Bool
  loadFn : String → Except PyErr ConfigDict

/-- The facade: the configured loader list. -/
structure ConfigFacade where
  loaders : List ConfigLoader

/-- Message of the unsupported-format `ValueError`. -/
def unsupportedMsg (path : String) (loaderNames : List String) : String :=
  "サポートされていない設定ファイル形式: " ++ path ++
    " (対応ローダー: " ++ pyReprStrList loaderNames ++ ")"

/-- `ConfigLoaderFacade.load(path, schema)`: first supporting loader loads,
then the schema validates; with no supporting loader, the unsupported-format
error names the path and lists the loaders. -/
def ConfigFacade.load {σ : Type} (f : ConfigFacade)
    (path : String) (schema : ConfigDict → Except PyErr σ) : Except PyErr σ :=
  match f.loaders.find? (fun l => l.supports path) with
  | some l =>
    match l.loadFn path with
    | .error e => .error e
    | .ok data => schema data
  | none => .error (.valueError (unsupportedMsg path (f.loaders.map (·.clsName))))

/-- `ConfigLoaderFacade.load_dict(path)`. -/
def ConfigFacade.load_dict (f : ConfigFacade) (path : String) :
    Except PyErr ConfigDict :=
  match f.loaders.find? (fun l => l.supports path) with
  | some l => l.loadFn path
  | none => .error (.valueError (unsupportedMsg path (f.loaders.map (·.clsName))))

/-- `PythonConfigLoader`: supports `.py` (its actual file-executing load is
abstracted as a parameter). -/
def pythonLoader (impl : String → Except PyErr ConfigDict) : ConfigLoader :=
  ⟨"PythonConfigLoader", fun p => strEndsWith p ".py", impl⟩

/-- `JsonConfigLoader`: supports `.json`. -/
def jsonLoader (impl : String → Except PyErr ConfigDict) : ConfigLoader :=
  ⟨"JsonConfigLoader", fun p => strEndsWith p ".json", impl⟩

/-- `YamlConfigLoader`: supports `.yaml` and `.yml`. -/
def yamlLoader (impl : String → Except PyErr ConfigDict) : ConfigLoader :=
  ⟨"YamlConfigLoader", fun p => strEndsWith p ".yaml" || strEndsWith p ".yml", impl⟩

/-- `ConfigLoaderFacade()` with the default loader list. -/
def defaultFacade (pyImpl jsonImpl yamlImpl : String → Except PyErr ConfigDict) :
    ConfigFacade :=
  ⟨[pythonLoader pyImpl, jsonLoader jsonImpl, yamlLoader yamlImpl]⟩

/-! ## Theorems -/

theorem natDecimalAux_fuel_irrelevant :
    ∀ (f g n : Nat), n ≤ f → n ≤ g → natDecimalAux f n = natDecimalAux g n := by
  intro f
  induction f with
  | zero =>
    intro g n hf _
    interval_cases n
    cases g with
    | zero => rfl
    | succ g => simp [natDecimalAux]
  | succ f ih =>
    intro g n hf hg
    by_cases h10 : n < 10
    · cases g with
      | zero =>
        interval_cases n
        simp [natDecimalAux]
      | succ g => simp [natDecimalAux, h10]
    · cases g with
      | zero => omega
      | succ g =>
        have hdiv : n / 10 < n := Nat.div_lt_self (by omega) (by omega)
        simp only [natDecimalAux, h10, if_false]
        rw [ih g (n / 10) (by omega) (by omega)]

theorem natDecimal_lt_ten {n : Nat} (h : n < 10) : natDecimal n = [Nat.digitChar n] := by
  unfold natDecimal
  cases n with
  | zero => rfl
  | succ m => simp [natDecimalAux, h]

theorem natDecimal_ge_ten {n : Nat} (h : 10 ≤ n) :
    natDecimal n = natDecimal (n / 10) ++ [Nat.digitChar (n % 10)] := by
  unfold natDecimal
  obtain ⟨f, rfl⟩ : ∃ f, n = f + 1 := ⟨n - 1, by omega⟩
  have h10 : ¬ (f + 1 < 10) := by omega
  simp only [natDecimalAux, h10, if_false]
  have hdiv : (f + 1) / 10 ≤ f := by
    have := Nat.div_lt_self (n := f + 1) (by omega) (by omega : 1 < 10)
    omega
  rw [natDecimalAux_fuel_irrelevant f ((f + 1) / 10) ((f + 1) / 10) hdiv (le_refl _)]

theorem digitChar_toNat {d : Nat} (h : d < 10) : (Nat.digitChar d).toNat = 48 + d := by
  interval_cases d <;> rfl

theorem digitChar_isDigit {d : Nat} (h : d < 10) : (Nat.digitChar d).isDigit = true := by
  interval_cases d <;> rfl

theorem natDecimal_all_digits (n : Nat) : (natDecimal n).all Char.isDigit = true := by
  induction n using Nat.strong_induction_on with
  | _ n ih =>
    by_cases h : n < 10
    · rw [natDecimal_lt_ten h]
      simp [digitChar_isDigit h]
    · rw [natDecimal_ge_ten (by omega)]
      have hdiv : n / 10 < n := Nat.div_lt_self (by omega) (by omega)
      have := ih (n / 10) hdiv
      simp_all [digitChar_isDigit (Nat.mod_lt n (by omega : 0 < 10))]

theorem natDecimal_ne_nil (n : Nat) : natDecimal n ≠ [] := by
  by_cases h : n < 10
  · rw [natDecimal_lt_ten h]; simp
  · rw [natDecimal_ge_ten (by omega)]; simp

theorem digitsVal_append_singleton (l : List Char) (c : Char) :
    digitsVal (l ++ [c]) = digitsVal l * 10 + (c.toNat - 48) := by
  simp [digitsVal, List.foldl_append]

theorem digitsVal_natDecimal (n : Nat) : digitsVal (natDecimal n) = n := by
  induction n using Nat.strong_induction_on with
  | _ n ih =>
    by_cases h : n < 10
    · rw [natDecimal_lt_ten h]
      simp [digitsVal, digitChar_toNat h]
    · rw [natDecimal_ge_ten (by omega)]
      have hdiv : n / 10 < n := Nat.div_lt_self (by omega) (by omega)
      rw [digitsVal_append_singleton, ih (n / 10) hdiv,
        digitChar_toNat (Nat.mod_lt n (by omega : 0 < 10))]
      omega

theorem natDecimal_injective : Function.Injective natDecimal := by
  intro a b h
  have := digitsVal_natDecimal a
  rw [h, digitsVal_natDecimal] at this
  omega

theorem splitOnChar_ne_nil (c : Char) (l : List Char) : splitOnChar c l ≠ [] := by
  cases l with
  | nil => simp [splitOnChar]
  | cons x xs =>
    by_cases h : x = c
    · simp [splitOnChar, h]
    · simp only [splitOnChar, h, if_false]
      cases splitOnChar c xs <;> simp

/-- The first segment of a Python split is everything before the first
occurrence of the separator. -/
theorem splitOnChar_head (c : Char) (l : List Char) :
    (splitOnChar c l).head? = some (l.takeWhile (· ≠ c)) := by
  induction l with
  | nil => rfl
  | cons x xs ih =>
    by_cases h : x = c
    · simp [splitOnChar, h, List.takeWhile]
    · rcases hs : splitOnChar c xs with _ | ⟨sh, st⟩
      · exact absurd hs (splitOnChar_ne_nil c xs)
      · rw [hs] at ih
        simp only [List.head?, Option.some.injEq] at ih
        simp [splitOnChar, h, hs, List.takeWhile_cons, ih]

/-- Splitting a string that starts with a separator-free block followed by the
separator peels the block off as the first segment. -/
theorem splitOnChar_append (c : Char) (tag rest : List Char)
    (htag : ∀ x ∈ tag, x ≠ c) :
    splitOnChar c (tag ++ c :: rest) = tag :: splitOnChar c rest := by
  induction tag with
  | nil => simp [splitOnChar]
  | cons x xs ih =>
    have hx : x ≠ c := htag x (List.mem_cons_self x xs)
    have ih' := ih (fun y hy => htag y (List.mem_cons_of_mem x hy))
    simp only [List.cons_append, splitOnChar, hx, if_false, List.append_eq, ih']

theorem pyStrLt_append_left (d x y : List Char) :
    pyStrLt (d ++ x) (d ++ y) = pyStrLt x y := by
  induction d with
  | nil => rfl
  | cons c cs ih => simp [pyStrLt, ih]

/-! ## Claim theorems -/

/-- C1 (counterexample): `find_next_index` does not realise the claim's
algorithm. On a base directory holding a plain file `20241230_009`, a
directory `20241230_005_bak` and a directory `20241230_-7`, the claim
collects exactly the suffix `009` (the only exact `"{date_tag}_<digits>"`
match, files included) and answers `10`, while the code skips the file,
collects `5` and `-7` from the two directories, and answers `6`. -/
theorem C1_counterexample :
    claimed_next_index
        (some [⟨"20241230_009".data, false⟩, ⟨"20241230_005_bak".data, true⟩,
               ⟨"20241230_-7".data, true⟩]) "20241230".data = 10 ∧
    find_next_index
        (some [⟨"20241230_009".data, false⟩, ⟨"20241230_005_bak".data, true⟩,
               ⟨"20241230_-7".data, true⟩]) "20241230".data = 6 := by
  constructor <;> decide

/-- C1 (amended): for every base directory and every date tag not containing
an underscore, `find_next_index` returns 1 when the base directory does not
exist; otherwise it scans the immediate children, collects — from every child
that is a directory and whose name starts with `"{date_tag}_"` — the text
between that underscore and the next underscore (or the end of the name)
parsed as Python `int` parses it (children that are not directories, and
children whose segment does not parse as an integer, are silently skipped,
never an error), and returns `max(collected) + 1`, or 1 if none were
collected. -/
theorem C1_next_index (b : Option (List DirEntry)) (d : List Char)
    (hd : ∀ ch ∈ d, ch ≠ '_') :
    find_next_index b d = amended_next_index b d := by
  cases b with
  | none => rfl
  | some entries =>
    have hfun : (fun p : DirEntry =>
        if p.isDir && (d ++ ['_']).isPrefixOf p.name then
          ((splitOnChar '_' p.name)[1]?).bind pyIntParse
        else none)
        = (fun p : DirEntry =>
        if p.isDir && (d ++ ['_']).isPrefixOf p.name then
          pyIntParse ((p.name.drop (d.length + 1)).takeWhile (· ≠ '_'))
        else none) := by
      funext p
      by_cases hc : (p.isDir && (d ++ ['_']).isPrefixOf p.name) = true
      · rw [if_pos hc, if_pos hc]
        have hpre : (d ++ ['_']).isPrefixOf p.name = true := by
          simp only [Bool.and_eq_true] at hc
          exact hc.2
        obtain ⟨rest, hrest⟩ := List.isPrefixOf_iff_prefix.mp hpre
        have hname : p.name = d ++ '_' :: rest := by
          rw [← hrest]; simp
        have hdrop : p.name.drop (d.length + 1) = rest := by
          rw [← hrest]
          have hlen : (d ++ ['_']).length = d.length + 1 := by simp
          rw [← hlen, List.drop_left]
        have hsplit : splitOnChar '_' p.name = d :: splitOnChar '_' rest := by
          rw [hname]; exact splitOnChar_append '_' d rest hd
        rcases hs : splitOnChar '_' rest with _ | ⟨s0, st⟩
        · exact absurd hs (splitOnChar_ne_nil '_' rest)
        · have hhead := splitOnChar_head '_' rest
          rw [hs] at hhead
          simp only [List.head?, Option.some.injEq] at hhead
          rw [hsplit, hs, hdrop]
          simp [hhead]
      · rw [if_neg hc, if_neg hc]
    unfold find_next_index amended_next_index
    rw [hfun]

/-- C1 (witness): the amended claim at the spec's own example — a base
directory holding directories `20241230_001`, `20241230_002` and
`20241230_abc` — where both sides answer 3, the non-numeric suffix ignored. -/
theorem C1_next_index_witness :
    find_next_index
        (some [⟨"20241230_001".data, true⟩, ⟨"20241230_002".data, true⟩,
               ⟨"20241230_abc".data, true⟩]) "20241230".data
      = amended_next_index
        (some [⟨"20241230_001".data, true⟩, ⟨"20241230_002".data, true⟩,
               ⟨"20241230_abc".data, true⟩]) "20241230".data ∧
    find_next_index
        (some [⟨"20241230_001".data, true⟩, ⟨"20241230_002".data, true⟩,
               ⟨"20241230_abc".data, true⟩]) "20241230".data = 3 :=
  ⟨C1_next_index _ _ (by decide), by decide⟩

theorem create_from_config_eq_mapM (r : Registry) (cfg : List Record) :
    r.create_from_config cfg = cfg.mapM (buildOne r) := by
  induction cfg with
  | nil => rfl
  | cons step rest ih =>
    rw [List.mapM_cons]
    simp only [Registry.create_from_config]
    cases hn : recordName step with
    | none => simp [buildOne, hn, Bind.bind, Except.bind]
    | some nv =>
      cases hc : r.create nv (recordKwargs step) with
      | error e => simp [buildOne, hn, hc, Bind.bind, Except.bind]
      | ok inst =>
        rw [ih]
        cases hm : rest.mapM (buildOne r) with
        | error e =>
          simp [buildOne, hn, hc, hm, Bind.bind, Except.bind]
        | ok l =>
          simp [buildOne, hn, hc, hm, Bind.bind, Except.bind, pure, Except.pure]

theorem create_from_config_append_error (r : Registry) (E : PyErr) :
    ∀ (pre tail : List Record),
      (∀ p ∈ pre, ∃ o, buildOne r p = .ok o) →
      r.create_from_config tail = .error E →
      r.create_from_config (pre ++ tail) = .error E := by
  intro pre
  induction pre with
  | nil =>
    intro tail _ ht
    simpa using ht
  | cons p pre ih =>
    intro tail hok ht
    obtain ⟨o, ho⟩ := hok p (List.mem_cons_self p pre)
    have hrest := ih tail (fun q hq => hok q (List.mem_cons_of_mem p hq)) ht
    rw [List.cons_append]
    simp only [Registry.create_from_config]
    cases hn : recordName p with
    | none => simp [buildOne, hn] at ho
    | some nv =>
      have hc : r.create nv (recordKwargs p) = .ok o := by
        simpa [buildOne, hn] using ho
      simp [hn, hc, hrest]

/-- C2 (amended): for every registry and every ordered list of records,
`create_many` returns one instance per record in input order, each
constructed via `create(record.name, **(record minus "name"))` (stated as
equality with the monadic map of that per-record step); an empty input list
returns an empty output list; a record lacking the `"name"` field raises the
"missing name field" `KeyError` — a fixed message that does not identify
which record — before any further records are processed; a record whose name
is unregistered raises the same "unregistered key" error as `create`; the
first failure aborts the whole batch, with instances already constructed
neither returned nor rolled back. -/
theorem C2_create_many (r : Registry) (cfg : List Record) :
    (r.create_from_config cfg = cfg.mapM (buildOne r)) ∧
    (r.create_from_config [] = (.ok [] : Except PyErr (List Obj))) ∧
    (∀ pre step rest, cfg = pre ++ step :: rest →
      (∀ p ∈ pre, ∃ o, buildOne r p = .ok o) →
      ((recordName step = none →
          r.create_from_config cfg = .error (.keyError missingNameMsg)) ∧
        (∀ nv e, recordName step = some nv →
          r.create nv (recordKwargs step) = .error e →
          r.create_from_config cfg = .error e))) := by
  refine ⟨create_from_config_eq_mapM r cfg, rfl, ?_⟩
  rintro pre step rest rfl hok
  constructor
  · intro hn
    refine create_from_config_append_error r _ pre (step :: rest) hok ?_
    simp [Registry.create_from_config, hn]
  · intro nv e hn he
    refine create_from_config_append_error r _ pre (step :: rest) hok ?_
    simp [Registry.create_from_config, hn, he]

/-- C2 (counterexample): the missing-name error carries a constant message
and therefore cannot report which record lacked the field: a batch failing on
its first record and a batch failing on its second produce the identical
error value. -/
theorem C2_counterexample :
    demoRegistry.create_from_config [[("x", PyVal.int 1)]]
        = .error (.keyError missingNameMsg) ∧
    demoRegistry.create_from_config
        [[("name", PyVal.str "blur")], [("x", PyVal.int 1)]]
        = .error (.keyError missingNameMsg) ∧
    recordName [("x", PyVal.int 1)] = none ∧
    recordName [("name", PyVal.str "blur")] = some (PyVal.str "blur") :=
  ⟨rfl, rfl, rfl, rfl⟩

/-- C2 (witness): the amended claim at the claims' own example registry — a
batch whose second record lacks `"name"` fails with the `KeyError` even
though its first record succeeds and its third is never reached, and the
fully well-formed two-record batch returns the two instances in order, each
carrying its given parameter. -/
theorem C2_create_many_witness :
    demoRegistry.create_from_config
        [[("name", PyVal.str "blur"), ("size", PyVal.int 5)],
         [("x", PyVal.int 1)], [("name", PyVal.str "edge")]]
      = .error (.keyError missingNameMsg) ∧
    demoRegistry.create_from_config
        [[("name", PyVal.str "blur"), ("size", PyVal.int 5)],
         [("name", PyVal.str "edge"), ("threshold", PyVal.int 50)]]
      = .ok [⟨[("size", PyVal.int 5)]⟩, ⟨[("threshold", PyVal.int 50)]⟩] :=
  ⟨((C2_create_many demoRegistry _).2.2
      [[("name", PyVal.str "blur"), ("size", PyVal.int 5)]]
      [("x", PyVal.int 1)] [[("name", PyVal.str "edge")]] rfl
      (by intro p hp; simp at hp; subst hp; exact ⟨⟨[("size", PyVal.int 5)]⟩, rfl⟩)).1
      rfl,
   rfl⟩

theorem assocFind_append_of_some {d e : List (String × PyType)} {k : String}
    {t : PyType} (h : assocFind d k = some t) :
    assocFind (d ++ e) k = some t := by
  unfold assocFind at h ⊢
  rw [List.find?_append]
  cases hf : d.find? (fun kv => kv.1 = k) with
  | none => rw [hf] at h; cases h
  | some kv => rw [hf] at h; simp [h]

/-- C5: for every registry, key and type, applying the registration function
with the key absent succeeds, appends the binding and hands the type back
unchanged; applying it with the key present fails with the duplicate-key
`ValueError` naming the key and the previously registered type; and every
successful application preserves every binding already present, so the
key-to-type mapping for a key never changes once registered. -/
theorem C5_register (r : Registry) (name : String) (cls : PyType) :
    (assocFind r.reg name = none →
      (r.register name).2 r cls
        = .ok ({ r with reg := r.reg ++ [(name, cls)] }, cls)) ∧
    (∀ prev, assocFind r.reg name = some prev →
      (r.register name).2 r cls = .error (.valueError (dupMsg name prev))) ∧
    (∀ r' cls', (r.register name).2 r cls = .ok (r', cls') →
      cls' = cls ∧ ∀ k t, assocFind r.reg k = some t → assocFind r'.reg k = some t) := by
  refine ⟨?_, ?_, ?_⟩
  · intro h
    simp [Registry.register, h]
  · intro prev h
    simp [Registry.register, h]
  · intro r' cls' h
    simp only [Registry.register] at h
    cases hf : assocFind r.reg name with
    | some prev => rw [hf] at h; cases h
    | none =>
      rw [hf] at h
      obtain ⟨hr, hc⟩ := Prod.mk.injEq .. ▸ Except.ok.inj h
      refine ⟨hc.symm, fun k t ht => ?_⟩
      rw [← hr]
      exact assocFind_append_of_some ht

/-- C5 (witness): registering `x` on an empty registry succeeds and records
the binding; registering `x` again on the result fails with the
duplicate message naming `x` and the first type. -/
theorem C5_register_witness :
    ((Registry.init "m").register "x").2 (Registry.init "m") (attrType "<class 'X'>")
      = .ok (⟨"m", [("x", attrType "<class 'X'>")]⟩, attrType "<class 'X'>") ∧
    ((⟨"m", [("x", attrType "<class 'X'>")]⟩ : Registry).register "x").2
        ⟨"m", [("x", attrType "<class 'X'>")]⟩ (attrType "<class 'Y'>")
      = .error (.valueError (dupMsg "x" (attrType "<class 'X'>"))) :=
  ⟨(C5_register (Registry.init "m") "x" (attrType "<class 'X'>")).1 rfl,
   (C5_register ⟨"m", [("x", attrType "<class 'X'>")]⟩ "x"
      (attrType "<class 'Y'>")).2.1 (attrType "<class 'X'>") rfl⟩

/-- C6: for every registry, key and keyword parameters, `create` fails with
the unregistered-key `ValueError` — whose message names the key and lists all
currently registered keys — when the key is absent, and otherwise returns
exactly what the registered type's constructor returns on those keyword
arguments: arguments are forwarded unchanged and construction errors
propagate unchanged. -/
theorem C6_create (r : Registry) (name : PyVal) (kwargs : List (String × PyVal)) :
    (r.findVal name = none →
      r.create name kwargs = .error (.valueError (unregisteredMsg name r.keys))) ∧
    (∀ t, r.findVal name = some t → r.create name kwargs = t.ctor kwargs) := by
  constructor
  · intro h
    simp [Registry.create, h]
  · intro t h
    simp [Registry.create, h]

/-- C6 (witness): with a type of constructor parameter `value` registered
under `x`, `create("x", value=42)` forwards the argument and yields an
instance whose `value` attribute is 42; `create` on an empty registry fails
with the unregistered message listing no keys. -/
theorem C6_create_witness :
    (⟨"t", [("x", attrType "<class 'X'>")]⟩ : Registry).create (PyVal.str "x")
        [("value", PyVal.int 42)]
      = (attrType "<class 'X'>").ctor [("value", PyVal.int 42)] ∧
    (attrType "<class 'X'>").ctor [("value", PyVal.int 42)]
      = .ok ⟨[("value", PyVal.int 42)]⟩ ∧
    (⟨"t", []⟩ : Registry).create (PyVal.str "y") []
      = .error (.valueError (unregisteredMsg (PyVal.str "y") [])) :=
  ⟨(C6_create ⟨"t", [("x", attrType "<class 'X'>")]⟩ (PyVal.str "x")
      [("value", PyVal.int 42)]).2 (attrType "<class 'X'>") rfl,
   rfl,
   (C6_create (⟨"t", []⟩ : Registry) (PyVal.str "y") []).1 rfl⟩

/-- C9: for every registry and key, calling `register(key)` by itself
records nothing and raises nothing — even twice on an already-present key —
because the duplicate-key check and the insertion live inside the returned
registration function: only applying that function to a type checks the key
(failing when present) and inserts the binding (when absent). -/
theorem C9_register_no_effect (r : Registry) (a b : String) (cls : PyType) :
    ((r.register a).1 = r) ∧
    (((r.register a).1.register b).1 = r) ∧
    (∀ prev, assocFind r.reg a = some prev →
      (r.register a).2 r cls = .error (.valueError (dupMsg a prev))) ∧
    (assocFind r.reg a = none →
      (r.register a).2 r cls = .ok ({ r with reg := r.reg ++ [(a, cls)] }, cls)) := by
  refine ⟨rfl, rfl, ?_, ?_⟩
  · intro prev h
    simp [Registry.register, h]
  · intro h
    simp [Registry.register, h]

/-- C9 (witness): calling `register("x")` twice on an empty registry without
applying either returned function leaves the registry empty; applying the
returned function afterwards does insert. -/
theorem C9_register_no_effect_witness :
    (((Registry.init "t").register "x").1.register "x").1 = Registry.init "t" ∧
    (((Registry.init "t").register "x").1.register "x").1.reg = [] ∧
    ((Registry.init "t").register "x").2 (Registry.init "t") (attrType "<class 'X'>")
      = .ok (⟨"t", [("x", attrType "<class 'X'>")]⟩, attrType "<class 'X'>") :=
  ⟨(C9_register_no_effect (Registry.init "t") "x" "x" (attrType "<class 'X'>")).2.1,
   rfl,
   (C9_register_no_effect (Registry.init "t") "x" "x" (attrType "<class 'X'>")).2.2.2 rfl⟩

theorem find?_map_fst_eq (f : String × FsPath → String × FsPath)
    (hf : ∀ kv, (f kv).1 = kv.1) (d : List (String × FsPath)) (n : String) :
    (d.map f).find? (fun kv => kv.1 = n) = (d.find? (fun kv => kv.1 = n)).map f := by
  induction d with
  | nil => rfl
  | cons hd tl ih =>
    simp only [List.map_cons, List.find?_cons, hf hd]
    by_cases h : hd.1 = n
    · simp [h]
    · simp [h, ih]

theorem subdirFind_dictInsert (d : List (String × FsPath)) (k n : String) (v : FsPath) :
    subdirFind (dictInsert d k v) n = if n = k then some v else subdirFind d n := by
  by_cases hany : d.any (fun kv => kv.1 = k) = true
  · have hmap := find?_map_fst_eq (fun kv => if kv.1 = k then (k, v) else kv)
      (fun kv => by by_cases hkv : kv.1 = k <;> simp [hkv]) d n
    simp only [dictInsert, hany, if_true, subdirFind, hmap]
    by_cases hnk : n = k
    · subst hnk
      have hsome : (d.find? (fun kv => kv.1 = n)).isSome = true := by
        rw [List.find?_isSome]
        simpa [List.any_eq_true] using hany
      obtain ⟨kv0, hkv0⟩ := Option.isSome_iff_exists.mp hsome
      have hk0 : kv0.1 = n := by simpa using List.find?_some hkv0
      simp [hkv0, hk0]
    · rw [if_neg hnk]
      cases hf0 : d.find? (fun kv => kv.1 = n) with
      | none => simp [hf0]
      | some kv0 =>
        have hk0 : kv0.1 ≠ k := by
          have := List.find?_some hf0
          simp only [decide_eq_true_eq] at this
          rw [this]; exact hnk
        simp [hf0, hk0]
  · have hany' : d.any (fun kv => kv.1 = k) = false := by
      cases hb : d.any (fun kv => kv.1 = k) with
      | false => rfl
      | true => exact absurd hb hany
    have hnone : ∀ kv ∈ d, kv.1 ≠ k := by
      intro kv hkv hc
      have htrue : d.any (fun kv => kv.1 = k) = true :=
        List.any_eq_true.mpr ⟨kv, hkv, by simp [hc]⟩
      rw [htrue] at hany'
      exact Bool.noConfusion hany'
    simp only [dictInsert, hany', Bool.false_eq_true, if_false, subdirFind,
      List.find?_append]
    by_cases hnk : n = k
    · subst hnk
      have hdn : d.find? (fun kv => kv.1 = n) = none :=
        List.find?_eq_none.mpr (fun kv hkv => by simpa using hnone kv hkv)
      simp [hdn, List.find?]
    · rw [if_neg hnk]
      have hkn : k ≠ n := fun hc => hnk hc.symm
      cases hf0 : d.find? (fun kv => kv.1 = n) with
      | none => simp [hf0, List.find?, hkn]
      | some kv0 => simp [hf0]

theorem subdirFind_foldInsert (root : FsPath) :
    ∀ (l : List String) (d : List (String × FsPath)) (n : String),
      subdirFind (l.foldl (fun d' n' => dictInsert d' n' (root.child n')) d) n
        = if n ∈ l then some (root.child n) else subdirFind d n := by
  intro l
  induction l with
  | nil => intro d n; simp
  | cons x xs ih =>
    intro d n
    rw [List.foldl_cons, ih]
    by_cases hx : n ∈ xs
    · simp [hx, List.mem_cons]
    · rw [if_neg hx, subdirFind_dictInsert]
      by_cases hnx : n = x
      · simp [hnx, List.mem_cons]
      · simp [hnx, hx, List.mem_cons]

theorem append_ne_at19 {A B ta tb : List Char} (h : A ++ ta = B ++ tb)
    (c₁ c₂ : Char) (hA : A[19]? = some c₁) (hB : B[19]? = some c₂)
    (hne : c₁ ≠ c₂) (hAl : 19 < A.length) (hBl : 19 < B.length) : False := by
  have h19 := congrArg (fun l => l[19]?) h
  simp only at h19
  rw [List.getElem?_append_left hAl, List.getElem?_append_left hBl, hA, hB] at h19
  exact hne (Option.some.inj h19)

theorem noAttrMsg_ne_noSubdirMsg (name : String) (avail : List String) :
    noAttrMsg name ≠ noSubdirMsg name avail := by
  intro h
  have hd := congrArg String.data h
  simp only [noAttrMsg, noSubdirMsg, String.data_append, List.append_assoc] at hd
  exact append_ne_at19 hd 'a' 's' (by decide) (by decide) (by decide)
    (by decide) (by decide)

/-- C4: for every Workspace built with a subdirectory list, looking up (via
the dynamic subdirectory lookup) a name present in the list returns the path
`root/name`, and looking up any other name — implementation-internal
underscore-led names excluded — raises the "no such subdirectory"
`AttributeError` whose message names the requested key and lists the
available keys. -/
theorem C4_getattr (root : FsPath) (subdirs : List String) (name : String)
    (hn : startsWithUnderscore name = false) :
    (name ∈ subdirs →
      (Workspace.init root (some subdirs)).getattr name = .ok (root.child name)) ∧
    (name ∉ subdirs →
      (Workspace.init root (some subdirs)).getattr name
        = .error (.attributeError (noSubdirMsg name
            ((Workspace.init root (some subdirs)).subdirs.map (·.1))))) := by
  have hlook : subdirFind (Workspace.init root (some subdirs)).subdirs name
      = if name ∈ subdirs then some (root.child name) else none := by
    simpa [Workspace.init] using subdirFind_foldInsert root subdirs [] name
  constructor
  · intro hmem
    rw [if_pos hmem] at hlook
    simp [Workspace.getattr, hn, hlook]
  · intro hmem
    rw [if_neg hmem] at hlook
    simp [Workspace.getattr, hn, hlook]

/-- C4 (witness): the claim's example — `subdirs=["a","b"]` resolves `a` and
`b` to `root/a` and `root/b`, and any other lookup errors listing
`['a', 'b']`. -/
theorem C4_getattr_witness :
    (Workspace.init ["ws"] (some ["a", "b"])).getattr "a" = .ok ["ws", "a"] ∧
    (Workspace.init ["ws"] (some ["a", "b"])).getattr "b" = .ok ["ws", "b"] ∧
    (Workspace.init ["ws"] (some ["a", "b"])).getattr "c"
      = .error (.attributeError (noSubdirMsg "c" ["a", "b"])) :=
  ⟨(C4_getattr ["ws"] ["a", "b"] "a" (by decide)).1 (by decide),
   (C4_getattr ["ws"] ["a", "b"] "b" (by decide)).1 (by decide),
   (C4_getattr ["ws"] ["a", "b"] "c" (by decide)).2 (by decide)⟩

/-- C10: for every Workspace built with a subdirectory whose name begins with
an underscore, the name-to-path mapping does record `root/name`, but looking
the name up raises the generic "has no attribute" `AttributeError` — which
differs from the "no such subdirectory" error whatever keys the latter would
list — so underscore-named subdirectories are unreachable through the
lookup interface. -/
theorem C10_underscore (root : FsPath) (subdirs : List String) (name : String)
    (hu : startsWithUnderscore name = true) :
    (name ∈ subdirs →
      subdirFind (Workspace.init root (some subdirs)).subdirs name
        = some (root.child name)) ∧
    ((Workspace.init root (some subdirs)).getattr name
      = .error (.attributeError (noAttrMsg name))) ∧
    (∀ avail, noAttrMsg name ≠ noSubdirMsg name avail) := by
  refine ⟨?_, ?_, fun avail => noAttrMsg_ne_noSubdirMsg name avail⟩
  · intro hmem
    have hlook := subdirFind_foldInsert root subdirs [] name
    rw [if_pos hmem] at hlook
    simpa [Workspace.init] using hlook
  · simp [Workspace.getattr, hu]

/-- C10 (witness): a Workspace built with `subdirs=["a","_cache"]` records
`root/_cache` in the mapping, yet `_cache` lookup raises the generic
attribute error, not the subdirectory-listing one. -/
theorem C10_underscore_witness :
    subdirFind (Workspace.init ["ws"] (some ["a", "_cache"])).subdirs "_cache"
      = some ["ws", "_cache"] ∧
    (Workspace.init ["ws"] (some ["a", "_cache"])).getattr "_cache"
      = .error (.attributeError (noAttrMsg "_cache")) ∧
    noAttrMsg "_cache" ≠ noSubdirMsg "_cache" ["a", "_cache"] :=
  ⟨(C10_underscore ["ws"] ["a", "_cache"] "_cache" (by decide)).1 (by decide),
   (C10_underscore ["ws"] ["a", "_cache"] "_cache" (by decide)).2.1,
   (C10_underscore ["ws"] ["a", "_cache"] "_cache" (by decide)).2.2 ["a", "_cache"]⟩

theorem probeLoop_spec (pfx : List Char) (existing : List (List Char)) :
    ∀ (fuel i : Nat),
      (∃ j, i ≤ j ∧ j < i + fuel ∧ (pfx ++ natDecimal j) ∉ existing) →
      (pfx ++ natDecimal (probeLoop fuel i pfx existing)) ∉ existing ∧
      i ≤ probeLoop fuel i pfx existing ∧
      ∀ k, i ≤ k → k < probeLoop fuel i pfx existing →
        (pfx ++ natDecimal k) ∈ existing := by
  intro fuel
  induction fuel with
  | zero =>
    rintro i ⟨j, hij, hjf, _⟩
    omega
  | succ fuel ih =>
    rintro i ⟨j, hij, hjf, hjfree⟩
    by_cases hmem : (pfx ++ natDecimal i) ∈ existing
    · have hji : i ≠ j := fun h => hjfree (h ▸ hmem)
      have h := ih (i + 1) ⟨j, by omega, by omega, hjfree⟩
      simp only [probeLoop, hmem, if_true]
      refine ⟨h.1, by omega, ?_⟩
      intro k hk1 hk2
      rcases Nat.eq_or_lt_of_le hk1 with rfl | hk
      · exact hmem
      · exact h.2.2 k (by omega) hk2
    · simp only [probeLoop]
      rw [if_neg hmem]
      exact ⟨hmem, le_refl i, by intro k h1 h2; omega⟩

theorem numberedIndex_exists_free (existing : List (List Char)) (pfx : List Char) :
    ∃ j, 1 ≤ j ∧ j < 1 + (existing.length + 1) ∧ (pfx ++ natDecimal j) ∉ existing := by
  by_contra hcon
  push_neg at hcon
  have hinj : Function.Injective (fun k : Nat => pfx ++ natDecimal k) := by
    intro a b hab
    exact natDecimal_injective (List.append_cancel_left hab)
  have hnd : ((List.range' 1 (existing.length + 1)).map
      (fun k => pfx ++ natDecimal k)).Nodup :=
    (List.nodup_range' 1 (existing.length + 1)).map hinj
  have hsub : ((List.range' 1 (existing.length + 1)).map (fun k => pfx ++ natDecimal k))
      ⊆ existing := by
    intro x hx
    simp only [List.mem_map, List.mem_range'_1] at hx
    obtain ⟨k, hk, rfl⟩ := hx
    exact hcon k (by omega) (by omega)
  have hlen := (List.subperm_of_subset hnd hsub).length_le
  simp only [List.length_map, List.length_range'] at hlen
  omega

/-- C3: for every set of names existing under the base directory and every
prefix string, the numbered-directory allocation selects (and creates as
workspace root) the name `"{prefix}{n}"` for the smallest positive integer
`n` such that `"{prefix}{n}"` does not already exist, probing linearly from
1: the chosen index is at least 1, its name is free, and the name of every
positive index below it is taken. -/
theorem C3_numbered_dir (existing : List (List Char)) (pfx : List Char) :
    numberedName existing pfx ∉ existing ∧
    1 ≤ numberedIndex existing pfx ∧
    ∀ k, 1 ≤ k → k < numberedIndex existing pfx →
      (pfx ++ natDecimal k) ∈ existing := by
  obtain ⟨j, h1, h2, h3⟩ := numberedIndex_exists_free existing pfx
  have h := probeLoop_spec pfx existing (existing.length + 1) 1 ⟨j, h1, by omega, h3⟩
  exact ⟨h.1, h.2.1, h.2.2⟩

/-- C3 (witness): with `models1` and `models2` existing, prefix `models`
yields `models3`. -/
theorem C3_numbered_dir_witness :
    (numberedName ["models1".data, "models2".data] "models".data
        ∉ [("models1".data : List Char), "models2".data] ∧
      1 ≤ numberedIndex ["models1".data, "models2".data] "models".data ∧
      ∀ k, 1 ≤ k → k < numberedIndex ["models1".data, "models2".data] "models".data →
        ("models".data ++ natDecimal k)
          ∈ [("models1".data : List Char), "models2".data]) ∧
    numberedName ["models1".data, "models2".data] "models".data = "models3".data :=
  ⟨C3_numbered_dir ["models1".data, "models2".data] "models".data, by decide⟩

theorem natDecimal_two {n : Nat} (h1 : 10 ≤ n) (h2 : n < 100) :
    natDecimal n = [Nat.digitChar (n / 10), Nat.digitChar (n % 10)] := by
  rw [natDecimal_ge_ten h1, natDecimal_lt_ten (by omega : n / 10 < 10)]
  rfl

theorem natDecimal_three {n : Nat} (h1 : 100 ≤ n) (h2 : n < 1000) :
    natDecimal n = [Nat.digitChar (n / 100), Nat.digitChar (n / 10 % 10),
      Nat.digitChar (n % 10)] := by
  have hd : n / 10 / 10 = n / 100 := by omega
  rw [natDecimal_ge_ten (by omega : 10 ≤ n),
    natDecimal_two (by omega : 10 ≤ n / 10) (by omega : n / 10 < 100), hd]
  rfl

theorem pad3_triple {n : Int} (h0 : 0 ≤ n) (h9 : n ≤ 999) :
    pad3 n = [Nat.digitChar (n.toNat / 100), Nat.digitChar (n.toNat / 10 % 10),
      Nat.digitChar (n.toNat % 10)] := by
  unfold pad3
  rw [if_neg (by omega)]
  by_cases hc1 : n.toNat < 10
  · rw [natDecimal_lt_ten hc1]
    have e1 : n.toNat / 100 = 0 := by omega
    have e2 : n.toNat / 10 % 10 = 0 := by omega
    have e3 : n.toNat % 10 = n.toNat := by omega
    rw [e1, e2, e3]
    rfl
  · by_cases hc2 : n.toNat < 100
    · rw [natDecimal_two (by omega) hc2]
      have e1 : n.toNat / 100 = 0 := by omega
      have e2 : n.toNat / 10 % 10 = n.toNat / 10 := by omega
      rw [e1, e2]
      rfl
    · rw [natDecimal_three (by omega) (by omega)]
      rfl

theorem pyStrLt_cons_lt {a b : Char} (as bs : List Char) (h : a.toNat < b.toNat) :
    pyStrLt (a :: as) (b :: bs) = true := by
  simp [pyStrLt, h]

theorem pyStrLt_cons_eq {a b : Char} (as bs : List Char) (h : a.toNat = b.toNat) :
    pyStrLt (a :: as) (b :: bs) = pyStrLt as bs := by
  simp only [pyStrLt]
  rw [if_neg (by omega), if_neg (by omega)]

theorem pyStrLt_pad3 {a b : Int} (h0 : 0 ≤ a) (hab : a < b) (hb : b ≤ 999) :
    pyStrLt (pad3 a) (pad3 b) = true := by
  rw [pad3_triple h0 (by omega), pad3_triple (by omega) hb]
  have hx2 : a.toNat / 100 < 10 := by omega
  have hy2 : b.toNat / 100 < 10 := by omega
  have hx1 : a.toNat / 10 % 10 < 10 := by omega
  have hy1 : b.toNat / 10 % 10 < 10 := by omega
  have hx0 : a.toNat % 10 < 10 := by omega
  have hy0 : b.toNat % 10 < 10 := by omega
  have hcases : a.toNat / 100 < b.toNat / 100 ∨ (a.toNat / 100 = b.toNat / 100 ∧
      (a.toNat / 10 % 10 < b.toNat / 10 % 10 ∨ (a.toNat / 10 % 10 = b.toNat / 10 % 10 ∧
        a.toNat % 10 < b.toNat % 10))) := by omega
  rcases hcases with h | ⟨he, h | ⟨he2, h⟩⟩
  · exact pyStrLt_cons_lt _ _ (by rw [digitChar_toNat hx2, digitChar_toNat hy2]; omega)
  · rw [pyStrLt_cons_eq _ _ (by rw [digitChar_toNat hx2, digitChar_toNat hy2, he])]
    exact pyStrLt_cons_lt _ _ (by rw [digitChar_toNat hx1, digitChar_toNat hy1]; omega)
  · rw [pyStrLt_cons_eq _ _ (by rw [digitChar_toNat hx2, digitChar_toNat hy2, he]),
      pyStrLt_cons_eq _ _ (by rw [digitChar_toNat hx1, digitChar_toNat hy1, he2])]
    exact pyStrLt_cons_lt _ _ (by rw [digitChar_toNat hx0, digitChar_toNat hy0]; omega)

theorem zero_foldl_replicate (k : Nat) :
    (List.replicate k '0').foldl (fun a c => a * 10 + (c.toNat - 48)) 0 = 0 := by
  induction k with
  | zero => rfl
  | succ k ih =>
    rw [List.replicate_succ, List.foldl_cons]
    have h0 : (0 : Nat) * 10 + ('0'.toNat - 48) = 0 := by decide
    rw [h0]
    exact ih

theorem digitsVal_leftPad (w : Nat) (l : List Char) :
    digitsVal (leftPad '0' w l) = digitsVal l := by
  rw [leftPad, digitsVal, List.foldl_append, zero_foldl_replicate]
  rfl

theorem pad3_all_digits {n : Int} (h : 0 ≤ n) : (pad3 n).all Char.isDigit = true := by
  unfold pad3
  rw [if_neg (by omega), leftPad, List.all_append, natDecimal_all_digits, Bool.and_true]
  rw [List.all_eq_true]
  intro c hc
  rw [List.eq_of_mem_replicate hc]
  decide

theorem pad3_length {n : Int} (h : 0 ≤ n) : 3 ≤ (pad3 n).length := by
  unfold pad3
  rw [if_neg (by omega), leftPad, List.length_append, List.length_replicate]
  omega

theorem digitsVal_pad3 {n : Int} (h : 0 ≤ n) : digitsVal (pad3 n) = n.toNat := by
  unfold pad3
  rw [if_neg (by omega), digitsVal_leftPad, digitsVal_natDecimal]

/-- C7 (counterexample): `format_name` is not strictly increasing in the
index under string comparison: the suffix widens at 1000, and
`"20241230_1000"` compares below `"20241230_999"` lexicographically. -/
theorem C7_counterexample :
    pyStrLt (format_workspace_name "20241230".data 999)
        (format_workspace_name "20241230".data 1000) = false ∧
    (999 : Int) < 1000 := by
  constructor
  · decide
  · decide

/-- C7 (amended): for every 8-digit date tag and every positive index,
`format_name` returns the date tag, an underscore, and the decimal suffix
zero-padded to at least 3 digits — widening naturally with the suffix still
reading back as the index, so the result matches the pattern `\d{8}_\d{3,}`
in full — and for a fixed date tag the result is strictly increasing in the
index as long as both indices stay within the three-digit range (at most
999); across the widening boundary the string order can decrease. -/
theorem C7_format_name (d : List Char) (i j : Int)
    (hd8 : d.length = 8) (hdig : d.all Char.isDigit = true) (hi : 1 ≤ i) :
    (∃ suffix, format_workspace_name d i = d ++ '_' :: suffix ∧
      d.length = 8 ∧ d.all Char.isDigit = true ∧
      suffix.all Char.isDigit = true ∧ 3 ≤ suffix.length ∧
      digitsVal suffix = i.toNat) ∧
    (i < j → j ≤ 999 →
      pyStrLt (format_workspace_name d i) (format_workspace_name d j) = true) := by
  constructor
  · exact ⟨pad3 i, rfl, hd8, hdig, pad3_all_digits (by omega), pad3_length (by omega),
      digitsVal_pad3 (by omega)⟩
  · intro hij hj
    unfold format_workspace_name
    have hsplit : ∀ x : List Char, d ++ '_' :: x = (d ++ ['_']) ++ x := by
      intro x; simp
    rw [hsplit (pad3 i), hsplit (pad3 j), pyStrLt_append_left]
    exact pyStrLt_pad3 (by omega) hij hj

/-- C7 (witness): at the date tag `20241230`, index 1 formats to
`20241230_001` and compares strictly below the formatting of index 2. -/
theorem C7_format_name_witness :
    pyStrLt (format_workspace_name "20241230".data 1)
        (format_workspace_name "20241230".data 2) = true ∧
    format_workspace_name "20241230".data 1 = "20241230_001".data :=
  ⟨(C7_format_name "20241230".data 1 2 (by decide) (by decide) (by decide)).2
      (by decide) (by decide),
   by decide⟩

/-- C8: for every configuration of loaders and every path no loader supports
— and in particular, with the default loaders, every path ending in none of
`.py`, `.json`, `.yaml`, `.yml` — both `load` and `load_dict` fail with the
unsupported-format `ValueError` whose message names the offending path and
lists the supported loaders. -/
theorem C8_unsupported (path : String) :
    (∀ (loaders : List ConfigLoader), (∀ l ∈ loaders, l.supports path = false) →
      (∀ (σ : Type) (schema : ConfigDict → Except PyErr σ),
        ConfigFacade.load ⟨loaders⟩ path schema
          = .error (.valueError (unsupportedMsg path (loaders.map (·.clsName))))) ∧
      ConfigFacade.load_dict ⟨loaders⟩ path
        = .error (.valueError (unsupportedMsg path (loaders.map (·.clsName))))) ∧
    (∀ (pyImpl jsonImpl yamlImpl : String → Except PyErr ConfigDict),
      strEndsWith path ".py" = false → strEndsWith path ".json" = false →
      strEndsWith path ".yaml" = false → strEndsWith path ".yml" = false →
      (∀ (σ : Type) (schema : ConfigDict → Except PyErr σ),
        (defaultFacade pyImpl jsonImpl yamlImpl).load path schema
          = .error (.valueError (unsupportedMsg path
              ["PythonConfigLoader", "JsonConfigLoader", "YamlConfigLoader"]))) ∧
      (defaultFacade pyImpl jsonImpl yamlImpl).load_dict path
        = .error (.valueError (unsupportedMsg path
            ["PythonConfigLoader", "JsonConfigLoader", "YamlConfigLoader"]))) := by
  constructor
  · intro loaders h
    have hf : loaders.find? (fun l => l.supports path) = none :=
      List.find?_eq_none.mpr (fun l hl => by simp [h l hl])
    exact ⟨fun σ schema => by simp [ConfigFacade.load, hf],
      by simp [ConfigFacade.load_dict, hf]⟩
  · intro pyImpl jsonImpl yamlImpl h1 h2 h3 h4
    have hall : ∀ l ∈ (defaultFacade pyImpl jsonImpl yamlImpl).loaders,
        l.supports path = false := by
      intro l hl
      simp only [defaultFacade, List.mem_cons, List.not_mem_nil, or_false] at hl
      rcases hl with rfl | rfl | rfl
      · simpa [pythonLoader] using h1
      · simpa [jsonLoader] using h2
      · simp [yamlLoader, h3, h4]
    have hf : (defaultFacade pyImpl jsonImpl yamlImpl).loaders.find?
        (fun l => l.supports path) = none :=
      List.find?_eq_none.mpr (fun l hl => by simp [hall l hl])
    refine ⟨fun σ schema => ?_, ?_⟩
    · simp only [ConfigFacade.load]
      rw [hf]
      rfl
    · simp only [ConfigFacade.load_dict]
      rw [hf]
      rfl

/-- C8 (witness): `config.txt` matches no default loader, and both `load`
and `load_dict` report the unsupported format naming the path and the three
loader class names. -/
theorem C8_unsupported_witness :
    ConfigFacade.load_dict
        (defaultFacade (fun _ => .ok []) (fun _ => .ok []) (fun _ => .ok []))
        "config.txt"
      = .error (.valueError (unsupportedMsg "config.txt"
          ["PythonConfigLoader", "JsonConfigLoader", "YamlConfigLoader"])) ∧
    ConfigFacade.load
        (defaultFacade (fun _ => .ok []) (fun _ => .ok []) (fun _ => .ok []))
        "config.txt" (fun d => .ok d)
      = .error (.valueError (unsupportedMsg "config.txt"
          ["PythonConfigLoader", "JsonConfigLoader", "YamlConfigLoader"])) :=
  ⟨((C8_unsupported "config.txt").2 (fun _ => .ok []) (fun _ => .ok []) (fun _ => .ok [])
      (by decide) (by decide) (by decide) (by decide)).2,
   ((C8_unsupported "config.txt").2 (fun _ => .ok []) (fun _ => .ok []) (fun _ => .ok [])
      (by decide) (by decide) (by decide) (by decide)).1 ConfigDict (fun d => .ok d)⟩


end Pochi

